import Mathlib

/-!
Verification of the commit-replay action (`src/index.ts`).

The TypeScript program is embedded shallowly:

* every `git` subprocess invocation is summarised by the `ExecOutput` it
  returns (`stdout`, `stderr`, `exitCode`), already trimmed as `execCommand`
  does;
* the behaviour of the repository for one commit of a replay run is a
  `StepBehavior`: the outcome of `git cherry-pick <c> --no-commit`, the
  `git status --porcelain` text that would be observed after a failed apply,
  and the outcome of the finalizing `git commit`;
* `cherryPickCommits` is translated line by line from the source loop; its
  second component counts how many times `git cherry-pick --abort` is run;
* the tail of `run()` (from the `core.setOutput` calls onwards) is embedded
  as an event trace `runAfterReplay`, and the input parsing/validation as
  `parseCommits` / `noCommitsSpecified`.

JavaScript string primitives used by the source (`includes`, `split`,
`trim`, `substring`, `replace(/\//g,'-')`, `s1 || s2`) are modelled over
`String.data` so that every definition evaluates by kernel reduction.
-/

/-- JS `needle` begins `hay` (helper for substring search). -/
def startsWithList : List Char → List Char → Bool
  | [], _ => true
  | _ :: _, [] => false
  | a :: as, b :: bs => a == b && startsWithList as bs

/-- JS `hay.includes(needle)` over char lists: `needle` occurs contiguously. -/
def containsList (needle : List Char) : List Char → Bool
  | [] => startsWithList needle []
  | c :: t => startsWithList needle (c :: t) || containsList needle t

/-- JS `s.includes(pat)`. -/
def jsIncludes (s pat : String) : Bool :=
  containsList pat.data s.data

/-- JS `a || b` on strings: `a` when non-empty (truthy), else `b`. -/
def jsOr (a b : String) : String :=
  if a = "" then b else a

/-- JS `s.trim()`: strip whitespace from both ends. -/
def jsTrim (s : String) : String :=
  ⟨((s.data.dropWhile Char.isWhitespace).reverse.dropWhile Char.isWhitespace).reverse⟩

/-- JS `s.split(',')`. -/
def jsSplitComma (s : String) : List String :=
  (s.data.splitOn ',').map fun cs => ⟨cs⟩

/-- JS `s.substring(0, n)`. -/
def jsSubstringTo (s : String) (n : Nat) : String :=
  ⟨s.data.take n⟩

/-- JS `s.replace(/\//g, '-')`: every slash becomes a dash. -/
def sanitizeSlashes (s : String) : String :=
  ⟨s.data.map fun ch => if ch = '/' then '-' else ch⟩

/-- Captured result of one subprocess call (`execCommand`). -/
structure ExecOutput where
  stdout : String
  stderr : String
  exitCode : Nat
deriving DecidableEq, Repr

/-- The repository's responses for one commit of the replay:
`apply` is `git cherry-pick <c> --no-commit`, `statusOut` is the
`git status --porcelain` stdout consulted after a failed apply, and
`finalize` is the `git commit -m ...` step. -/
structure StepBehavior where
  apply : ExecOutput
  statusOut : String
  finalize : ExecOutput
deriving DecidableEq, Repr

/-- The `status` field of `CherryPickResult`. -/
inductive CPStatus where
  | success
  | conflict
  | failed
deriving DecidableEq, Repr

/-- `CherryPickResult` from the source (`successfulCommits` is
`appliedCommits` in the spec's vocabulary, `failedCommit` its
`stoppedAtCommit`, `error` its `diagnostic`). -/
structure CherryPickResult where
  status : CPStatus
  successfulCommits : List String
  failedCommit : Option String
  error : Option String
deriving DecidableEq, Repr

/-- `statusResult.stdout.includes('UU') || ... 'AA' || ... 'DD'` (lines 132-134). -/
def hasConflict (statusOut : String) : Bool :=
  jsIncludes statusOut "UU" || jsIncludes statusOut "AA" || jsIncludes statusOut "DD"

/-- The templated conflict diagnostic (line 144). -/
def conflictMessage (commit : String) : String :=
  "Merge conflict while cherry-picking commit " ++ commit

/-- `cherryPickCommits` (lines 119-175), paired with the number of times the
abort capability (`git cherry-pick --abort`, line 139) is invoked. -/
def cherryPickCommits : List (String × StepBehavior) → CherryPickResult × Nat
  | [] => (⟨CPStatus.success, [], none, none⟩, 0)
  | (commit, b) :: rest =>
    if b.apply.exitCode ≠ 0 then
      if hasConflict b.statusOut then
        (⟨CPStatus.conflict, [], some commit, some (conflictMessage commit)⟩, 1)
      else
        (⟨CPStatus.failed, [], some commit, some (jsOr b.apply.stderr b.apply.stdout)⟩, 0)
    else if b.finalize.exitCode ≠ 0 ∧ jsIncludes b.finalize.stdout "nothing to commit" = false then
      (⟨CPStatus.failed, [], some commit,
        some ("Failed to commit cherry-pick: " ++ b.finalize.stderr)⟩, 0)
    else
      let r := cherryPickCommits rest
      (⟨r.1.status, commit :: r.1.successfulCommits, r.1.failedCommit, r.1.error⟩, r.2)

/-- A step on which the loop proceeds to the next commit with exit code 0
everywhere (clean apply and clean finalize). -/
def cleanStep (p : String × StepBehavior) : Prop :=
  p.2.apply.exitCode = 0 ∧ p.2.finalize.exitCode = 0

instance (p : String × StepBehavior) : Decidable (cleanStep p) := by
  unfold cleanStep; infer_instance

/-- Processing a run of clean steps only prepends their commits to the
result of the remainder, and touches nothing else. -/
theorem cherryPickCommits_clean_append (pre rest : List (String × StepBehavior))
    (h : ∀ p ∈ pre, cleanStep p) :
    cherryPickCommits (pre ++ rest) =
      (⟨(cherryPickCommits rest).1.status,
        pre.map Prod.fst ++ (cherryPickCommits rest).1.successfulCommits,
        (cherryPickCommits rest).1.failedCommit,
        (cherryPickCommits rest).1.error⟩,
       (cherryPickCommits rest).2) := by
  induction pre with
  | nil => simp
  | cons p pre ih =>
    obtain ⟨c, b⟩ := p
    have hc : cleanStep (c, b) := h _ (List.mem_cons_self _ _)
    obtain ⟨ha, hf⟩ := hc
    have ih' := ih fun q hq => h q (List.mem_cons_of_mem _ hq)
    simp [cherryPickCommits, show b.apply.exitCode = 0 from ha,
      show b.finalize.exitCode = 0 from hf, ih']

/-- `startsWithList n h` decides whether `n` is an initial segment of `h`. -/
theorem startsWithList_iff (n : List Char) : ∀ h : List Char,
    startsWithList n h = true ↔ ∃ t, n ++ t = h := by
  induction n with
  | nil => intro h; simp [startsWithList]
  | cons a as ih =>
    intro h
    cases h with
    | nil => simp [startsWithList]
    | cons b bs => simp [startsWithList, ih bs, List.cons_append]

/-- `containsList n h` decides whether `n` occurs contiguously inside `h`,
i.e. JS `includes` is substring search. -/
theorem containsList_iff (n h : List Char) :
    containsList n h = true ↔ ∃ p t, p ++ n ++ t = h := by
  induction h with
  | nil =>
    simp only [containsList, startsWithList_iff]
    constructor
    · rintro ⟨t, ht⟩
      exact ⟨[], t, by simpa using ht⟩
    · rintro ⟨p, t, ht⟩
      simp only [List.append_assoc, List.append_eq_nil] at ht
      exact ⟨t, by simp [ht.1, ht.2.1, ht.2.2]⟩
  | cons c t ih =>
    simp only [containsList, Bool.or_eq_true, startsWithList_iff, ih]
    constructor
    · rintro (⟨s, hs⟩ | ⟨p, s, hs⟩)
      · exact ⟨[], s, by simpa using hs⟩
      · exact ⟨c :: p, s, by simpa using hs⟩
    · rintro ⟨p, s, hs⟩
      cases p with
      | nil => exact Or.inl ⟨s, by simpa using hs⟩
      | cons c2 p2 =>
        simp only [List.cons_append, List.cons.injEq] at hs
        exact Or.inr ⟨p2, s, hs.2⟩

/-- The conflict heuristic holds exactly when `UU`, `AA` or `DD` occurs
somewhere in the porcelain status text. -/
theorem hasConflict_iff (s : String) :
    hasConflict s = true ↔
      (∃ p t, p ++ "UU".data ++ t = s.data) ∨
      (∃ p t, p ++ "AA".data ++ t = s.data) ∨
      (∃ p t, p ++ "DD".data ++ t = s.data) := by
  simp [hasConflict, jsIncludes, Bool.or_eq_true, containsList_iff, or_assoc]

/-- A clean two-exit-code-zero adapter behavior, for concrete witnesses. -/
def cleanDemo : StepBehavior :=
  { apply := ⟨"", "", 0⟩, statusOut := "", finalize := ⟨"", "", 0⟩ }

/-- A behavior whose apply fails with conflict markers in the status text. -/
def conflictDemo : StepBehavior :=
  { apply := ⟨"", "error: could not apply def5678", 1⟩
    statusOut := "UU src/app.ts"
    finalize := ⟨"", "", 0⟩ }

/-- C1: for every non-empty list of commits on which every apply step and
every finalize step exits with code 0, `cherryPickCommits` returns status
`success` and `successfulCommits` equal to the full input list in order. -/
theorem cherryPick_replay_success_on_clean_run
    (steps : List (String × StepBehavior)) (_hne : steps ≠ [])
    (h : ∀ p ∈ steps, cleanStep p) :
    (cherryPickCommits steps).1.status = CPStatus.success ∧
    (cherryPickCommits steps).1.successfulCommits = steps.map Prod.fst := by
  have hall := cherryPickCommits_clean_append steps [] h
  rw [List.append_nil] at hall
  rw [hall]
  simp [cherryPickCommits]

/-- Witness for C1: a concrete two-commit clean run. -/
theorem cherryPick_replay_success_on_clean_run_witness :
    (cherryPickCommits [("abc1234", cleanDemo), ("def5678", cleanDemo)]).1.status
        = CPStatus.success ∧
    (cherryPickCommits [("abc1234", cleanDemo), ("def5678", cleanDemo)]).1.successfulCommits
        = ["abc1234", "def5678"] := by
  have h := cherryPick_replay_success_on_clean_run
    [("abc1234", cleanDemo), ("def5678", cleanDemo)] (by decide) (by decide)
  exact ⟨h.1, h.2.trans (by decide)⟩

/-- C2: when the first commits are clean and the k-th apply fails with
conflict markers present, the run returns `conflict`, the applied commits
are exactly the clean ones before it, the failed commit and the templated
diagnostic name the k-th commit, abort runs exactly once, and the commits
after the k-th are never consulted. -/
theorem cherryPick_conflict_stops_run
    (pre post : List (String × StepBehavior)) (c : String) (b : StepBehavior)
    (hpre : ∀ p ∈ pre, cleanStep p)
    (ha : b.apply.exitCode ≠ 0) (hc : hasConflict b.statusOut = true) :
    (cherryPickCommits (pre ++ (c, b) :: post)).1.status = CPStatus.conflict ∧
    (cherryPickCommits (pre ++ (c, b) :: post)).1.successfulCommits = pre.map Prod.fst ∧
    (cherryPickCommits (pre ++ (c, b) :: post)).1.failedCommit = some c ∧
    (cherryPickCommits (pre ++ (c, b) :: post)).1.error
        = some ("Merge conflict while cherry-picking commit " ++ c) ∧
    (cherryPickCommits (pre ++ (c, b) :: post)).2 = 1 ∧
    cherryPickCommits (pre ++ (c, b) :: post) = cherryPickCommits (pre ++ [(c, b)]) := by
  rw [cherryPickCommits_clean_append pre ((c, b) :: post) hpre,
    cherryPickCommits_clean_append pre [(c, b)] hpre]
  simp [cherryPickCommits, ha, hc, conflictMessage]

/-- Witness for C2: the second of three commits conflicts. -/
theorem cherryPick_conflict_stops_run_witness :
    (cherryPickCommits
        [("abc1234", cleanDemo), ("def5678", conflictDemo), ("aaa9999", cleanDemo)]).1.status
      = CPStatus.conflict ∧
    (cherryPickCommits
        [("abc1234", cleanDemo), ("def5678", conflictDemo), ("aaa9999", cleanDemo)]).1.successfulCommits
      = ["abc1234"] ∧
    (cherryPickCommits
        [("abc1234", cleanDemo), ("def5678", conflictDemo), ("aaa9999", cleanDemo)]).1.failedCommit
      = some "def5678" ∧
    (cherryPickCommits
        [("abc1234", cleanDemo), ("def5678", conflictDemo), ("aaa9999", cleanDemo)]).1.error
      = some "Merge conflict while cherry-picking commit def5678" ∧
    (cherryPickCommits
        [("abc1234", cleanDemo), ("def5678", conflictDemo), ("aaa9999", cleanDemo)]).2 = 1 := by
  have h := cherryPick_conflict_stops_run
    [("abc1234", cleanDemo)] [("aaa9999", cleanDemo)] "def5678" conflictDemo
    (by decide) (by decide) (by decide)
  obtain ⟨h1, h2, h3, h4, h5, _⟩ := h
  exact ⟨h1, h2.trans (by decide), h3, h4.trans (by decide), h5⟩


/-- C3: whatever the adapter outcomes, `successfulCommits` is an initial
segment of the input commits in input order: the full list when the status
is `success`, and strictly shorter (possibly empty) otherwise. -/
theorem cherryPick_applied_initial_segment (steps : List (String × StepBehavior)) :
    (cherryPickCommits steps).1.successfulCommits
        = (steps.map Prod.fst).take (cherryPickCommits steps).1.successfulCommits.length ∧
    ((cherryPickCommits steps).1.status = CPStatus.success →
        (cherryPickCommits steps).1.successfulCommits = steps.map Prod.fst) ∧
    ((cherryPickCommits steps).1.status ≠ CPStatus.success →
        (cherryPickCommits steps).1.successfulCommits.length < steps.length) := by
  induction steps with
  | nil => simp [cherryPickCommits]
  | cons p rest ih =>
    obtain ⟨c, b⟩ := p
    obtain ⟨ih1, ih2, ih3⟩ := ih
    by_cases ha : b.apply.exitCode ≠ 0
    · by_cases hc : hasConflict b.statusOut = true
      · simp [cherryPickCommits, ha, hc, Nat.succ_pos]
      · simp [cherryPickCommits, ha, hc, Nat.succ_pos]
    · have ha0 : b.apply.exitCode = 0 := by omega
      by_cases hf : b.finalize.exitCode ≠ 0 ∧ jsIncludes b.finalize.stdout "nothing to commit" = false
      · simp [cherryPickCommits, ha0, hf, Nat.succ_pos]
      · have hstep : cherryPickCommits ((c, b) :: rest) =
            (⟨(cherryPickCommits rest).1.status,
              c :: (cherryPickCommits rest).1.successfulCommits,
              (cherryPickCommits rest).1.failedCommit,
              (cherryPickCommits rest).1.error⟩,
             (cherryPickCommits rest).2) := by
          simp [cherryPickCommits, ha0, hf]
        rw [hstep]
        exact ⟨congrArg (List.cons c) ih1,
          fun hs => congrArg (List.cons c) (ih2 hs),
          fun hs => Nat.succ_lt_succ (ih3 hs)⟩

/-- Witness for C3 at a run whose second commit conflicts. -/
theorem cherryPick_applied_initial_segment_witness :
    (cherryPickCommits [("abc1234", cleanDemo), ("def5678", conflictDemo)]).1.successfulCommits
        = (([("abc1234", cleanDemo), ("def5678", conflictDemo)].map Prod.fst).take
            (cherryPickCommits
              [("abc1234", cleanDemo), ("def5678", conflictDemo)]).1.successfulCommits.length) ∧
    (cherryPickCommits
        [("abc1234", cleanDemo), ("def5678", conflictDemo)]).1.successfulCommits.length < 2 := by
  have h := cherryPick_applied_initial_segment [("abc1234", cleanDemo), ("def5678", conflictDemo)]
  exact ⟨h.1, h.2.2 (by decide)⟩

/-- A clean apply whose finalize exits non-zero printing `nothing to commit`. -/
def nothingToCommitDemo : StepBehavior :=
  { apply := ⟨"", "", 0⟩
    statusOut := ""
    finalize := ⟨"On branch work\nnothing to commit, working tree clean", "", 1⟩ }

/-- A clean apply whose finalize fails for another reason. -/
def badFinalizeDemo : StepBehavior :=
  { apply := ⟨"", "", 0⟩
    statusOut := ""
    finalize := ⟨"", "fatal: could not write commit", 1⟩ }

/-- C4: after a clean apply, a failing finalize whose stdout contains
`nothing to commit` still records the commit as applied and the replay
continues with the remaining commits exactly as before; any other finalize
failure ends the replay as `failed`, with the diagnostic built from the
finalize step's stderr and the current commit absent from the applied
list. -/
theorem cherryPick_finalize_failure_handling
    (pre post : List (String × StepBehavior)) (c : String) (b : StepBehavior)
    (hpre : ∀ p ∈ pre, cleanStep p)
    (ha : b.apply.exitCode = 0) (hf : b.finalize.exitCode ≠ 0) :
    (jsIncludes b.finalize.stdout "nothing to commit" = true →
      cherryPickCommits (pre ++ (c, b) :: post) =
        (⟨(cherryPickCommits post).1.status,
          pre.map Prod.fst ++ c :: (cherryPickCommits post).1.successfulCommits,
          (cherryPickCommits post).1.failedCommit,
          (cherryPickCommits post).1.error⟩,
         (cherryPickCommits post).2)) ∧
    (jsIncludes b.finalize.stdout "nothing to commit" = false →
      (cherryPickCommits (pre ++ (c, b) :: post)).1 =
        ⟨CPStatus.failed, pre.map Prod.fst, some c,
          some ("Failed to commit cherry-pick: " ++ b.finalize.stderr)⟩) := by
  rw [cherryPickCommits_clean_append pre ((c, b) :: post) hpre]
  constructor
  · intro ht
    simp [cherryPickCommits, ha, hf, ht]
  · intro hnot
    simp [cherryPickCommits, ha, hf, hnot]

/-- Witness for C4: a tolerated no-op finalize versus a genuine finalize
failure, each followed by a second commit. -/
theorem cherryPick_finalize_failure_handling_witness :
    cherryPickCommits [("abc1234", nothingToCommitDemo), ("def5678", cleanDemo)] =
      (⟨CPStatus.success, ["abc1234", "def5678"], none, none⟩, 0) ∧
    (cherryPickCommits [("abc1234", badFinalizeDemo), ("def5678", cleanDemo)]).1 =
      ⟨CPStatus.failed, [], some "abc1234",
        some "Failed to commit cherry-pick: fatal: could not write commit"⟩ := by
  have h1 := (cherryPick_finalize_failure_handling [] [("def5678", cleanDemo)] "abc1234"
    nothingToCommitDemo (by decide) (by decide) (by decide)).1 (by decide)
  have h2 := (cherryPick_finalize_failure_handling [] [("def5678", cleanDemo)] "abc1234"
    badFinalizeDemo (by decide) (by decide) (by decide)).2 (by decide)
  exact ⟨h1.trans (by decide), h2.trans (by decide)⟩

/-- A failing apply with no conflict markers and empty captured stderr. -/
def failDemo : StepBehavior :=
  { apply := ⟨"error: bad revision", "", 128⟩
    statusOut := "?? notes.txt"
    finalize := ⟨"", "", 0⟩ }

/-- A failing apply whose status text carries `UU` only inside a path name. -/
def pathConflictDemo : StepBehavior :=
  { apply := ⟨"", "error: could not apply", 1⟩
    statusOut := " M aUUb.txt"
    finalize := ⟨"", "", 0⟩ }

/-- C9: a failed apply is classified as a conflict exactly when `UU`, `AA`
or `DD` occurs as a substring anywhere in the porcelain status text (a
path name included); otherwise the replay fails with the apply step's
stderr as diagnostic when it is non-empty and its stdout otherwise. -/
theorem apply_failure_classification
    (c : String) (b : StepBehavior) (rest : List (String × StepBehavior))
    (ha : b.apply.exitCode ≠ 0) :
    ((cherryPickCommits ((c, b) :: rest)).1.status = CPStatus.conflict ↔
      (∃ p t, p ++ "UU".data ++ t = b.statusOut.data) ∨
      (∃ p t, p ++ "AA".data ++ t = b.statusOut.data) ∨
      (∃ p t, p ++ "DD".data ++ t = b.statusOut.data)) ∧
    (hasConflict b.statusOut = false →
      (cherryPickCommits ((c, b) :: rest)).1.status = CPStatus.failed ∧
      (b.apply.stderr ≠ "" →
        (cherryPickCommits ((c, b) :: rest)).1.error = some b.apply.stderr) ∧
      (b.apply.stderr = "" →
        (cherryPickCommits ((c, b) :: rest)).1.error = some b.apply.stdout)) := by
  constructor
  · rw [← hasConflict_iff]
    by_cases hc : hasConflict b.statusOut = true
    · simp [cherryPickCommits, ha, hc]
    · simp [cherryPickCommits, ha, hc]
  · intro hc
    have hst : (cherryPickCommits ((c, b) :: rest)).1.status = CPStatus.failed := by
      simp [cherryPickCommits, ha, hc]
    have herr : (cherryPickCommits ((c, b) :: rest)).1.error
        = some (jsOr b.apply.stderr b.apply.stdout) := by
      simp [cherryPickCommits, ha, hc]
    refine ⟨hst, ?_, ?_⟩
    · intro hne
      rw [herr]
      simp [jsOr, hne]
    · intro heq
      rw [herr]
      simp [jsOr, heq]

/-- Witness for C9: a conflict marker hidden inside a path name still
classifies as conflict, and a marker-free failure falls back to stdout. -/
theorem apply_failure_classification_witness :
    (cherryPickCommits [("abc1234", pathConflictDemo)]).1.status = CPStatus.conflict ∧
    (cherryPickCommits [("abc1234", failDemo)]).1.status = CPStatus.failed ∧
    (cherryPickCommits [("abc1234", failDemo)]).1.error = some "error: bad revision" := by
  have h1 := (apply_failure_classification "abc1234" pathConflictDemo [] (by decide)).1.mpr
    (Or.inl ⟨" M a".data, "b.txt".data, by decide⟩)
  have h2 := (apply_failure_classification "abc1234" failDemo [] (by decide)).2 (by decide)
  exact ⟨h1, h2.1, h2.2.2 (by decide)⟩

/-- Parsed caller configuration consumed by `run()` (lines 289-301);
the access token is omitted (it only gets redacted and forwarded). -/
structure Inputs where
  commits : List String
  targetBranch : String
  newBranch : String
  prTitle : String
  prBody : String
  repository : String
  draft : Bool
  labels : List String
deriving DecidableEq, Repr

/-- `core.getInput('commits').split(',').map(c => c.trim())` (line 290). -/
def parseCommits (raw : String) : List String :=
  (jsSplitComma raw).map jsTrim

/-- The guard of the `No commits specified` validation (line 307):
`commits.length === 0 || (commits.length === 1 && commits[0] === '')`. -/
def noCommitsSpecified (commits : List String) : Bool :=
  commits.length == 0 || (commits.length == 1 && commits.headD "" == "")

/-- `generateBranchName` (lines 253-258); `Date.now()` is passed in as
`timestamp`. -/
def generateBranchName (targetBranch : String) (commits : List String) (timestamp : Nat) : String :=
  let shortSha := jsSubstringTo (commits.headD "") 7
  let sanitizedTarget := sanitizeSlashes targetBranch
  "cherrypick/" ++ sanitizedTarget ++ "/" ++ shortSha ++ "-" ++ toString timestamp

/-- `inputs.newBranch || generateBranchName(...)` (line 317). -/
def chooseBranchName (newBranch targetBranch : String) (commits : List String)
    (timestamp : Nat) : String :=
  jsOr newBranch (generateBranchName targetBranch commits timestamp)

/-- PR title generation (lines 199-207); `subject` models `getCommitMessage`. -/
def computeTitle (inputs : Inputs) (subject : String → String) : String :=
  if inputs.prTitle ≠ "" then inputs.prTitle
  else if inputs.commits.length = 1 then "Cherry-pick: " ++ subject (inputs.commits.headD "")
  else "Cherry-pick " ++ toString inputs.commits.length ++ " commits to " ++ inputs.targetBranch

/-- One line of the default PR body (line 217). -/
def commitLine (subject : String → String) (commit : String) : String :=
  "- `" ++ jsSubstringTo commit 7 ++ "` " ++ subject commit ++ "\n"

/-- Default PR body header (lines 212-214). -/
def prBodyHeader (targetBranch : String) : String :=
  "## Cherry-pick PR\n\n" ++ "**Target branch:** `" ++ targetBranch ++ "`\n\n"
    ++ "### Commits cherry-picked:\n"

/-- Default PR body footer (lines 219-220). -/
def prBodyFooter : String :=
  "\n---\n"
    ++ "Generated by [flxbl-actions/cherrypick-and-create-pr](https://github.com/flxbl-io/cherrypick-and-create-pr)"

/-- PR body generation (lines 210-221). -/
def computeBody (inputs : Inputs) (result : CherryPickResult) (subject : String → String) : String :=
  if inputs.prBody ≠ "" then inputs.prBody
  else prBodyHeader inputs.targetBranch
    ++ String.join (result.successfulCommits.map (commitLine subject))
    ++ prBodyFooter

/-- Observable effects in the tail of `run()` (lines 330-357). -/
inductive RunEvent where
  | setOutput (key value : String)
  | pushAttempt (branch : String)
  | createPRAttempt (title body head base : String) (draft : Bool)
  | setFailed (message : String)
deriving DecidableEq, Repr

/-- Whether an event is the push step. -/
def RunEvent.isPushAttempt : RunEvent → Bool
  | .pushAttempt _ => true
  | _ => false

/-- Whether an event is the review-request creation step. -/
def RunEvent.isCreatePRAttempt : RunEvent → Bool
  | .createPRAttempt _ _ _ _ _ => true
  | _ => false

/-- Rendering of `CherryPickResult.status` as emitted by `core.setOutput`. -/
def statusString : CPStatus → String
  | .success => "success"
  | .conflict => "conflict"
  | .failed => "failed"

/-- The tail of `run()` once `cherryPickCommits` has returned
(lines 330-357): the two `core.setOutput` calls, then the `failed` and
`conflict` early exits, then push and review-request creation. `pushOk`
and `prOk` say whether those external steps themselves succeed;
`pushErr`/`prErr` carry their error texts and `prUrl`/`prNumber` the
hosting platform's response. -/
def runAfterReplay (inputs : Inputs) (branchName : String) (res : CherryPickResult)
    (subject : String → String) (pushOk prOk : Bool)
    (pushErr prErr prUrl prNumber : String) : List RunEvent :=
  RunEvent.setOutput "cherry-pick-status" (statusString res.status) ::
  RunEvent.setOutput "branch-name" branchName ::
  match res.status with
  | CPStatus.failed =>
    [RunEvent.setFailed ("Cherry-pick failed: " ++ res.error.getD "")]
  | CPStatus.conflict =>
    [RunEvent.setFailed ("Merge conflict while cherry-picking commit "
        ++ res.failedCommit.getD "")]
  | CPStatus.success =>
    RunEvent.pushAttempt branchName ::
    if pushOk then
      RunEvent.createPRAttempt (computeTitle inputs subject) (computeBody inputs res subject)
          branchName inputs.targetBranch inputs.draft ::
      (if prOk then
        [RunEvent.setOutput "pr-url" prUrl, RunEvent.setOutput "pr-number" prNumber]
      else [RunEvent.setFailed prErr])
    else [RunEvent.setFailed ("Failed to push branch: " ++ pushErr)]

/-- Demo inputs with no explicit title or body. -/
def demoInputs : Inputs :=
  { commits := ["abc1234", "def5678"]
    targetBranch := "release/1.0"
    newBranch := ""
    prTitle := ""
    prBody := ""
    repository := "octo/repo"
    draft := false
    labels := [] }

/-- A conflicting replay result, as produced for scenario B. -/
def conflictResultDemo : CherryPickResult :=
  ⟨CPStatus.conflict, ["abc1234"], some "def5678",
    some "Merge conflict while cherry-picking commit def5678"⟩

/-- A fully successful replay result over `demoInputs`. -/
def successResultDemo : CherryPickResult :=
  ⟨CPStatus.success, ["abc1234", "def5678"], none, none⟩

/-- C5: the push step and the review-request creation step occur in the
post-replay tail exactly when the replay status is `success`; a `conflict`
or `failed` outcome produces a trace containing neither. -/
theorem push_and_pr_only_on_success
    (inputs : Inputs) (branchName : String) (res : CherryPickResult)
    (subject : String → String) (pushOk prOk : Bool)
    (pushErr prErr prUrl prNumber : String) :
    (res.status ≠ CPStatus.success →
      (runAfterReplay inputs branchName res subject pushOk prOk pushErr prErr prUrl prNumber).all
          (fun e => !(e.isPushAttempt || e.isCreatePRAttempt)) = true) ∧
    (res.status = CPStatus.success →
      (runAfterReplay inputs branchName res subject pushOk prOk pushErr prErr prUrl prNumber).any
          RunEvent.isPushAttempt = true ∧
      (pushOk = true →
        (runAfterReplay inputs branchName res subject pushOk prOk pushErr prErr prUrl prNumber).any
            RunEvent.isCreatePRAttempt = true)) := by
  rcases hst : res.status <;> cases pushOk <;> cases prOk <;>
    simp [runAfterReplay, hst, RunEvent.isPushAttempt, RunEvent.isCreatePRAttempt]

/-- Witness for C5: a conflict trace has no push or PR event, and a success
trace attempts the push. -/
theorem push_and_pr_only_on_success_witness :
    (runAfterReplay demoInputs "cherrypick/x" conflictResultDemo (fun _ => "s") true true
        "" "" "" "").all (fun e => !(e.isPushAttempt || e.isCreatePRAttempt)) = true ∧
    (runAfterReplay demoInputs "cherrypick/x" successResultDemo (fun _ => "s") true true
        "" "" "" "").any RunEvent.isPushAttempt = true := by
  have h1 := (push_and_pr_only_on_success demoInputs "cherrypick/x" conflictResultDemo
    (fun _ => "s") true true "" "" "" "").1 (by decide)
  have h2 := (push_and_pr_only_on_success demoInputs "cherrypick/x" successResultDemo
    (fun _ => "s") true true "" "" "" "").2 rfl
  exact ⟨h1, h2.1⟩

/-- C6: every post-replay trace begins with the status output followed by
the branch-name output, whatever the outcome, and any push or
review-request event sits strictly after those two positions. -/
theorem status_outputs_emitted_first
    (inputs : Inputs) (branchName : String) (res : CherryPickResult)
    (subject : String → String) (pushOk prOk : Bool)
    (pushErr prErr prUrl prNumber : String) :
    (∃ rest, runAfterReplay inputs branchName res subject pushOk prOk pushErr prErr prUrl prNumber =
      RunEvent.setOutput "cherry-pick-status" (statusString res.status) ::
      RunEvent.setOutput "branch-name" branchName :: rest) ∧
    (∀ i e,
      (runAfterReplay inputs branchName res subject pushOk prOk pushErr prErr prUrl prNumber).get? i
          = some e →
      (e.isPushAttempt || e.isCreatePRAttempt) = true → 2 ≤ i) := by
  refine ⟨⟨_, rfl⟩, ?_⟩
  intro i e hget hpe
  match i with
  | 0 =>
    simp only [runAfterReplay, List.get?_cons_zero, Option.some.injEq] at hget
    rw [← hget] at hpe
    simp [RunEvent.isPushAttempt, RunEvent.isCreatePRAttempt] at hpe
  | 1 =>
    simp only [runAfterReplay, List.get?_cons_succ, List.get?_cons_zero,
      Option.some.injEq] at hget
    rw [← hget] at hpe
    simp [RunEvent.isPushAttempt, RunEvent.isCreatePRAttempt] at hpe
  | (n + 2) => omega

/-- Witness for C6: the conflict trace of scenario B starts with the two
outputs, and the push event of a success trace indeed sits at index 2. -/
theorem status_outputs_emitted_first_witness :
    (∃ rest, runAfterReplay demoInputs "cherrypick/x" conflictResultDemo (fun _ => "s")
        true true "" "" "" "" =
      RunEvent.setOutput "cherry-pick-status" "conflict" ::
      RunEvent.setOutput "branch-name" "cherrypick/x" :: rest) ∧ 2 ≤ 2 := by
  have h1 := status_outputs_emitted_first demoInputs "cherrypick/x" conflictResultDemo
    (fun _ => "s") true true "" "" "" ""
  have h2 := status_outputs_emitted_first demoInputs "cherrypick/x" successResultDemo
    (fun _ => "s") true true "" "" "u" "1"
  exact ⟨h1.1, h2.2 2 (RunEvent.pushAttempt "cherrypick/x") (by decide) (by decide)⟩

/-- C7: an explicitly supplied non-empty branch name is returned verbatim;
otherwise the name is synthesized as `cherrypick/`, the target branch with
every slash replaced by a dash, a slash, the first 7 characters of the
first commit, a dash, and the current milliseconds timestamp. -/
theorem branch_namer_spec (newBranch targetBranch c : String) (cs : List String)
    (timestamp : Nat) :
    (newBranch ≠ "" →
      chooseBranchName newBranch targetBranch (c :: cs) timestamp = newBranch) ∧
    (newBranch = "" →
      chooseBranchName newBranch targetBranch (c :: cs) timestamp =
        "cherrypick/" ++ sanitizeSlashes targetBranch ++ "/" ++ jsSubstringTo c 7
          ++ "-" ++ toString timestamp) := by
  constructor
  · intro h
    simp [chooseBranchName, jsOr, h]
  · intro h
    simp [chooseBranchName, jsOr, h, generateBranchName]

/-- Witness for C7: passthrough of an explicit name, and a fully evaluated
synthesized name for target `release/1.0`. -/
theorem branch_namer_spec_witness :
    chooseBranchName "my-branch" "release/1.0" ["abc1234def"] 1699999999999 = "my-branch" ∧
    chooseBranchName "" "release/1.0" ["abc1234def"] 1699999999999
      = "cherrypick/release-1.0/abc1234-1699999999999" := by
  have h1 := (branch_namer_spec "my-branch" "release/1.0" "abc1234def" [] 1699999999999).1
    (by decide)
  have h2 := (branch_namer_spec "" "release/1.0" "abc1234def" [] 1699999999999).2 rfl
  exact ⟨h1, h2.trans (by decide)⟩

/-- C8: on a successful outcome (the applied commits are exactly the
requested ones), a provided title is used verbatim; with no provided title,
one applied commit gives `Cherry-pick: ` plus that commit's subject and
several applied commits give `Cherry-pick N commits to ` plus the target
branch, N being the applied-commit count; the default body is the fixed
header, one line per applied commit in `successfulCommits` order (7-char
prefix plus subject), and the fixed footer. -/
theorem pr_composer_spec (inputs : Inputs) (result : CherryPickResult)
    (subject : String → String)
    (happlied : result.successfulCommits = inputs.commits) :
    (inputs.prTitle ≠ "" → computeTitle inputs subject = inputs.prTitle) ∧
    (inputs.prTitle = "" → ∀ c, result.successfulCommits = [c] →
      computeTitle inputs subject = "Cherry-pick: " ++ subject c) ∧
    (inputs.prTitle = "" → 1 < result.successfulCommits.length →
      computeTitle inputs subject =
        "Cherry-pick " ++ toString result.successfulCommits.length ++ " commits to "
          ++ inputs.targetBranch) ∧
    (inputs.prBody = "" → computeBody inputs result subject =
      prBodyHeader inputs.targetBranch
        ++ String.join (result.successfulCommits.map (commitLine subject))
        ++ prBodyFooter) := by
  refine ⟨?_, ?_, ?_, ?_⟩
  · intro h
    simp [computeTitle, h]
  · intro h c hc
    rw [happlied] at hc
    simp [computeTitle, h, hc]
  · intro h hlen
    rw [happlied] at hlen
    have hne : ¬ inputs.commits.length = 1 := by omega
    simp [computeTitle, h, hne, happlied]
  · intro h
    simp [computeBody, h]

set_option maxRecDepth 8000 in
/-- Witness for C8: the default title and fully evaluated default body for
a two-commit success. -/
theorem pr_composer_spec_witness :
    computeTitle demoInputs (fun _ => "fix bug") = "Cherry-pick 2 commits to release/1.0" ∧
    computeBody demoInputs successResultDemo (fun _ => "fix bug") =
      "## Cherry-pick PR\n\n**Target branch:** `release/1.0`\n\n### Commits cherry-picked:\n"
        ++ "- `abc1234` fix bug\n- `def5678` fix bug\n\n---\n"
        ++ "Generated by [flxbl-actions/cherrypick-and-create-pr](https://github.com/flxbl-io/cherrypick-and-create-pr)" := by
  have h := pr_composer_spec demoInputs successResultDemo (fun _ => "fix bug") rfl
  exact ⟨(h.2.2.1 rfl (by decide)).trans (by decide), (h.2.2.2 rfl).trans (by decide)⟩

/-- C10: the `No commits specified` guard rejects exactly an empty parsed
list or a single empty entry; an input splitting into two or more entries
passes validation even when every entry is empty (so `,,` passes), and
every parsed entry is the whitespace-trim of a raw split entry. -/
theorem commits_validation_spec (l : List String) (raw : String) :
    (noCommitsSpecified l = true ↔ l = [] ∨ l = [""]) ∧
    noCommitsSpecified (parseCommits ",,") = false ∧
    (∀ e ∈ parseCommits raw, ∃ rawEntry ∈ jsSplitComma raw, e = jsTrim rawEntry) := by
  refine ⟨?_, by decide, ?_⟩
  · match l with
    | [] => simp [noCommitsSpecified]
    | [a] => simp [noCommitsSpecified]
    | a :: b :: t => simp [noCommitsSpecified]
  · intro e he
    simp only [parseCommits, List.mem_map] at he
    obtain ⟨r, hr, hre⟩ := he
    exact ⟨r, hr, hre.symm⟩

/-- Witness for C10: `,,` passes the guard, and the entry `a` of
`" a ,b"` arises as the trim of a raw split entry. -/
theorem commits_validation_spec_witness :
    noCommitsSpecified (parseCommits ",,") = false ∧
    (∃ rawEntry ∈ jsSplitComma " a ,b", "a" = jsTrim rawEntry) := by
  have h := commits_validation_spec [""] " a ,b"
  exact ⟨h.2.1, h.2.2 "a" (by decide)⟩
